import Mathlib

/-!
# Verification of the go-log-middleware logging package

A shallow embedding of the `logging` package of qvest-digital/go-log-middleware.
Pure functions of the Go source are translated into Lean functions; the
process-wide policy state (`AccessLogCookiesBlacklist`, `AnonymizedQueryParams`,
the global `Logger`) is passed explicitly; the logrus sink is modelled as the
emitted `Event` values (field mapping, severity, message).  Strings are
modelled as sequences of Unicode scalars; the percent-encoding helpers agree
with Go's byte-level `net/url` code on the ASCII range used throughout.
-/

set_option maxRecDepth 4096

namespace Logging

/-! ## Query-string machinery from Go's `net/url`

`buildFullPath` in the source calls `r.URL.Query()` (i.e. `url.ParseQuery` on
the raw query), rebuilds a `url.Values`, encodes it with `Values.Encode` and
percent-decodes the result with `url.QueryUnescape`.  The following embeds
exactly that pipeline. -/

/-- Hex digit value of a character, as in `net/url`'s `unhex` (accepts both
cases); `none` when the character is not a hex digit. -/
def hexDigitVal (c : Char) : Option Nat :=
  if '0' ≤ c ∧ c ≤ '9' then some (c.toNat - '0'.toNat)
  else if 'a' ≤ c ∧ c ≤ 'f' then some (c.toNat - 'a'.toNat + 10)
  else if 'A' ≤ c ∧ c ≤ 'F' then some (c.toNat - 'A'.toNat + 10)
  else none

/-- `net/url.unescape` in query-component mode: `+` becomes a space, `%XX`
decodes, a malformed `%` sequence is an error (`none`). -/
def unescapeQueryChars : List Char → Option (List Char)
  | [] => some []
  | '%' :: a :: b :: rest => do
    let x ← hexDigitVal a
    let y ← hexDigitVal b
    let r ← unescapeQueryChars rest
    pure (Char.ofNat (16 * x + y) :: r)
  | '%' :: _ => none
  | '+' :: rest => (unescapeQueryChars rest).map (' ' :: ·)
  | c :: rest => (unescapeQueryChars rest).map (c :: ·)

/-- `url.QueryUnescape`. -/
def queryUnescape (s : String) : Option String :=
  (unescapeQueryChars s.toList).map String.mk

/-- `queryString, _ := url.QueryUnescape(...)` in `buildFullPath` discards the
error; on a malformed input Go's `QueryUnescape` returns the empty string
together with the error. -/
def queryUnescapeDropErr (s : String) : String :=
  match queryUnescape s with
  | some t => t
  | none => ""

/-- Upper-case hex digit, as used by `net/url.escape`. -/
def upperHexDigit (n : Nat) : Char :=
  if n < 10 then Char.ofNat (48 + n) else Char.ofNat (55 + n)

/-- `url.QueryEscape` on one character: unreserved characters stay, space
becomes `+`, everything else is `%XX` with upper-case hex. -/
def escapeQueryChar (c : Char) : List Char :=
  if c = ' ' then ['+']
  else if c.isAlphanum ∨ c = '-' ∨ c = '_' ∨ c = '.' ∨ c = '~' then [c]
  else ['%', upperHexDigit (c.toNat / 16), upperHexDigit (c.toNat % 16)]

/-- `url.QueryEscape`. -/
def queryEscape (s : String) : String :=
  String.mk (s.toList.flatMap escapeQueryChar)

/-- Split a raw query on the separators `&` and `;` (as the `net/url`
version vendored by this repository does); auxiliary accumulator form. -/
def splitSepsAux : List Char → List Char → List (List Char)
  | [], acc => [acc.reverse]
  | c :: rest, acc =>
    if c = '&' ∨ c = ';' then acc.reverse :: splitSepsAux rest []
    else splitSepsAux rest (c :: acc)

/-- The segments of a raw query; the Go loop produces no segment for the
empty query and skips empty segments later (`if key == "" { continue }`). -/
def splitSeps : List Char → List (List Char)
  | [] => []
  | c :: rest => splitSepsAux (c :: rest) []

/-- Split a segment at its first `=`; with no `=` the value is empty,
mirroring `strings.Index(key, "=")` in `url.parseQuery`. -/
def splitEqAux : List Char → List Char → List Char × List Char
  | [], acc => (acc.reverse, [])
  | c :: rest, acc =>
    if c = '=' then (acc.reverse, rest) else splitEqAux rest (c :: acc)

/-- `url.Values` as an association list from parameter name to its values,
in first-appearance order; Go's map itself is unordered, and every consumer
below (`Values.Encode`) sorts the keys, so the order never shows. -/
abbrev QueryValues := List (String × List String)

/-- `m[key] = append(m[key], value)` on the association list. -/
def addValue : QueryValues → String → String → QueryValues
  | [], k, v => [(k, [v])]
  | (k', vs) :: rest, k, v =>
    if k' = k then (k', vs ++ [v]) :: rest else (k', vs) :: addValue rest k v

/-- Map lookup on `QueryValues`. -/
def lookupQ : QueryValues → String → Option (List String)
  | [], _ => none
  | p :: rest, k => if p.1 = k then some p.2 else lookupQ rest k

/-- One iteration of `url.parseQuery`: skip an empty segment, split at `=`,
unescape key and value, skip the pair when unescaping fails. -/
def parsePair (m : QueryValues) (seg : List Char) : QueryValues :=
  if seg = [] then m
  else
    match unescapeQueryChars (splitEqAux seg []).1,
        unescapeQueryChars (splitEqAux seg []).2 with
    | some k, some v => addValue m (String.mk k) (String.mk v)
    | _, _ => m

/-- `url.ParseQuery` as called by `r.URL.Query()` (the error is ignored
there). -/
def parseQuery (raw : String) : QueryValues :=
  (splitSeps raw.toList).foldl parsePair []

/-- Lexicographic comparison of character lists, matching Go's bytewise
string `<` on the ASCII range. -/
def charsLt : List Char → List Char → Bool
  | [], [] => false
  | [], _ :: _ => true
  | _ :: _, [] => false
  | a :: as, b :: bs => if a < b then true else if b < a then false else charsLt as bs

/-- Go's string `<`. -/
def strLt (a b : String) : Bool := charsLt a.toList b.toList

/-- Insertion into a sorted list of strings, for `sort.Strings`. -/
def insertSorted (x : String) : List String → List String
  | [] => [x]
  | y :: ys => if strLt x y then x :: y :: ys else y :: insertSorted x ys

/-- `sort.Strings` on the key list of `Values.Encode` (insertion sort; only
the resulting order matters). -/
def sortStrings : List String → List String
  | [] => []
  | x :: xs => insertSorted x (sortStrings xs)

/-- Join with `&`, as `Values.Encode` writes a `&` before every piece but
the first. -/
def joinAmp : List String → String
  | [] => ""
  | [x] => x
  | x :: y :: rest => x ++ "&" ++ joinAmp (y :: rest)

/-- The `key=value` occurrences `Values.Encode` writes, in order: keys
sorted, then one pair per value of the key. -/
def flatPairs (m : QueryValues) : List (String × String) :=
  (sortStrings (m.map Prod.fst)).flatMap
    (fun k => ((lookupQ m k).getD []).map (fun v => (k, v)))

/-- `url.Values.Encode`: sorted keys, percent-escaped, `k=v` pairs joined
with `&`. -/
def valuesEncode (m : QueryValues) : String :=
  joinAmp ((flatPairs m).map (fun p => queryEscape p.1 ++ "=" ++ queryEscape p.2))

/-- `contains` from the source (linear scan). -/
def contains : List String → String → Bool
  | [], _ => false
  | a :: rest, e => if a = e then true else contains rest e

/-- The anonymization loop of `buildFullPath`: an anonymized parameter's
values are replaced wholesale by the single mask value, other parameters are
copied unchanged. -/
def maskParams (anonymizedQueryParams : List String) (m : QueryValues) : QueryValues :=
  m.map (fun p => if contains anonymizedQueryParams p.1 then (p.1, ["*****"]) else p)

/-- The parts of `r.URL` that the source reads: `Scheme`, `Hostname()`,
`Port()`, `Path` and `RawQuery`. -/
structure URL where
  scheme : String
  hostname : String
  port : String
  path : String
  rawQuery : String
deriving DecidableEq

/-- `buildFullPath`. -/
def buildFullPath (anonymizedQueryParams : List String) (u : URL) : String :=
  let queryParams := maskParams anonymizedQueryParams (parseQuery u.rawQuery)
  let queryString := queryUnescapeDropErr (valuesEncode queryParams)
  if queryString ≠ "" then u.path ++ "?" ++ queryString else u.path

/-- `buildFullUrl`. -/
def buildFullUrl (anonymizedQueryParams : List String) (u : URL) : String :=
  u.scheme ++ "://" ++ u.hostname ++
    (if u.port ≠ "" then ":" ++ u.port else "") ++
    buildFullPath anonymizedQueryParams u

/-! ## Events, requests and the field builders of `logger.go` -/

/-- A value stored in a `logrus.Fields` entry, restricted to the shapes this
package actually stores: strings, integers (status codes, durations), and the
string-to-string cookie map. -/
inductive FieldValue
  | str (s : String)
  | int (n : Int)
  | strMap (m : List (String × String))
deriving DecidableEq

/-- `logrus.Fields`: a mapping from field name to value; assignment
overwrites. -/
def Fields := String → Option FieldValue

/-- The empty field mapping. -/
def emptyFields : Fields := fun _ => none

/-- `fields[k] = v`. -/
def fset (f : Fields) (k : String) (v : FieldValue) : Fields :=
  fun k' => if k' = k then some v else f k'

/-- Read a field of an event (absent fields are `none`). -/
def fieldGet (f : Fields) (k : String) : Option FieldValue := f k

/-- The severities this package emits. -/
inductive Severity
  | debug
  | info
  | warning
  | error
deriving DecidableEq

/-- One emitted log record: the structured fields, the severity of the
emitting call (`e.Info`/`e.Warn`/`e.Error`/`e.Debug`), and its message. -/
structure Event where
  fields : Fields
  severity : Severity
  message : String

/-- A header set; `http.Header.Get` returns the first value of the
(canonicalized) key or the empty string.  Keys are taken to be in canonical
form. -/
abbrev Header := List (String × String)

/-- `http.Header.Get`. -/
def headerGet : Header → String → String
  | [], _ => ""
  | p :: rest, k => if p.1 = k then p.2 else headerGet rest k

/-- The parts of `*http.Request` the source reads: method, `Host`, URL,
protocol, headers, parsed cookies (`r.Cookies()`, name-value pairs in header
order, duplicates possible), and `RemoteAddr`. -/
structure Request where
  method : String
  host : String
  url : URL
  proto : String
  header : Header
  cookies : List (String × String)
  remoteAddr : String

/-- `UserCorrelationIdHeader` (from `user_correlation_id.go`). -/
def UserCorrelationIdHeader : String := "X-User-Correlation-Id"

/-- `GetUserCorrelationId` (from `user_correlation_id.go`). -/
def GetUserCorrelationId (h : Header) : String :=
  headerGet h UserCorrelationIdHeader

/-- Modelled from the spec: the request-correlation header name (the file
defining it is not under src/; the spec gives the default
`X-Correlation-Id`-style name). -/
def CorrelationIdHeader : String := "X-Correlation-Id"

/-- Modelled from the spec: `GetCorrelationId` reads the request correlation
id from its header, empty when unset (the defining file is not under src/). -/
def GetCorrelationId (h : Header) : String :=
  headerGet h CorrelationIdHeader

/-- Modelled from the spec: `EnsureCorrelationId` only reads the header and
synthesizes nothing in this layer (propagate-only, per the spec's observed
behavior; the defining file is not under src/). -/
def EnsureCorrelationId (r : Request) : Request := r

/-- `setCorrelationIds`. -/
def setCorrelationIds (f : Fields) (h : Header) : Fields :=
  let f1 := if GetCorrelationId h ≠ "" then
      fset f "correlation_id" (.str (GetCorrelationId h)) else f
  if GetUserCorrelationId h ≠ "" then
    fset f1 "user_correlation_id" (.str (GetUserCorrelationId h)) else f1

/-- `strings.Split(remoteAddr, ":")[0]`: the characters before the first
colon. -/
def takeUntilColon : List Char → List Char
  | [] => []
  | c :: rest => if c = ':' then [] else c :: takeUntilColon rest

/-- `getRemoteIp`. -/
def getRemoteIp (r : Request) : String :=
  if headerGet r.header "X-Cluster-Client-Ip" ≠ "" then
    headerGet r.header "X-Cluster-Client-Ip"
  else if headerGet r.header "X-Real-Ip" ≠ "" then
    headerGet r.header "X-Real-Ip"
  else String.mk (takeUntilColon r.remoteAddr.toList)

/-- Insertion into the cookie map: `cookies[c.Name] = c.Value` (overwrite). -/
def insertCookie : List (String × String) → String → String → List (String × String)
  | [], k, v => [(k, v)]
  | (k', v') :: rest, k, v =>
    if k' = k then (k', v) :: rest else (k', v') :: insertCookie rest k v

/-- Map lookup on the cookie map. -/
def lookupStr : List (String × String) → String → Option String
  | [], _ => none
  | p :: rest, k => if p.1 = k then some p.2 else lookupStr rest k

/-- The cookie loop of `access`: every cookie whose name is not blacklisted
is written into the map. -/
def cookiesMap (accessLogCookiesBlacklist : List String)
    (cs : List (String × String)) : List (String × String) :=
  cs.foldl
    (fun m c => if contains accessLogCookiesBlacklist c.1 then m
                else insertCookie m c.1 c.2)
    []

/-- `access`: builds the field mapping shared by `Access` and `AccessError`.
`start` stands for the `@timestamp` value, `durationMs` for the computed
duration; both are opaque to every property below. -/
def access (anonymizedQueryParams accessLogCookiesBlacklist : List String)
    (r : Request) (start : String) (durationMs : Int) (statusCode : Int)
    (err : Option String) : Fields :=
  let base := emptyFields
    |> (fset · "type" (.str "access"))
    |> (fset · "@timestamp" (.str start))
    |> (fset · "remote_ip" (.str (getRemoteIp r)))
    |> (fset · "host" (.str r.host))
    |> (fset · "url" (.str (buildFullPath anonymizedQueryParams r.url)))
    |> (fset · "method" (.str r.method))
    |> (fset · "proto" (.str r.proto))
    |> (fset · "duration" (.int durationMs))
    |> (fset · "User_Agent" (.str (headerGet r.header "User-Agent")))
  let f1 := if statusCode ≠ 0 then fset base "response_status" (.int statusCode) else base
  let f2 := match err with
    | some e => fset f1 "error" (.str e)
    | none => f1
  let f3 := setCorrelationIds f2 r.header
  let cookies := cookiesMap accessLogCookiesBlacklist r.cookies
  if cookies ≠ [] then fset f3 "cookies" (.strMap cookies) else f3

/-- The severity branch shared verbatim by `Access` (on the supplied status
code) and `Call` (on the response status). -/
def severityForStatus (statusCode : Int) : Severity :=
  if 200 ≤ statusCode ∧ statusCode ≤ 399 then .info
  else if 400 ≤ statusCode ∧ statusCode ≤ 499 then .warning
  else .error

/-- `Access`: one access event with the status-derived severity and the
query-eliding message. -/
def Access (anonymizedQueryParams accessLogCookiesBlacklist : List String)
    (r : Request) (start : String) (durationMs : Int) (statusCode : Int) : Event :=
  let e := access anonymizedQueryParams accessLogCookiesBlacklist r start durationMs statusCode none
  let msg := if r.url.rawQuery = ""
    then toString statusCode ++ " ->" ++ r.method ++ " " ++ r.url.path
    else toString statusCode ++ " ->" ++ r.method ++ " " ++ r.url.path ++ "?..."
  { fields := e, severity := severityForStatus statusCode, message := msg }

/-- `AccessError`: the error event for a failed access (status code 0, so no
`response_status` field; message `ERROR -><method> <path>`). -/
def AccessError (anonymizedQueryParams accessLogCookiesBlacklist : List String)
    (r : Request) (start : String) (durationMs : Int) (errMsg : String) : Event :=
  { fields := access anonymizedQueryParams accessLogCookiesBlacklist r start durationMs 0 (some errMsg),
    severity := .error,
    message := "ERROR ->" ++ r.method ++ " " ++ r.url.path }

/-- The parts of `*http.Response` that `Call` reads. -/
structure HTTPResponse where
  statusCode : Int
  header : Header

/-- `Call`: the outbound-call reporter.  Returned as the list of emitted
events so that "exactly one event per invocation" is a provable statement;
each Go branch performs exactly one logging call and returns. -/
def Call (anonymizedQueryParams : List String) (r : Request)
    (resp : Option HTTPResponse) (start : String) (durationMs : Int)
    (err : Option String) : List Event :=
  let fields := emptyFields
    |> (fset · "type" (.str "call"))
    |> (fset · "@timestamp" (.str start))
    |> (fset · "host" (.str r.host))
    |> (fset · "url" (.str (buildFullPath anonymizedQueryParams r.url)))
    |> (fset · "full_url" (.str (buildFullUrl anonymizedQueryParams r.url)))
    |> (fset · "method" (.str r.method))
    |> (fset · "duration" (.int durationMs))
  let fields := setCorrelationIds fields r.header
  match err with
  | some e => [{ fields := fset fields "error" (.str e), severity := .error, message := e }]
  | none =>
    match resp with
    | some resp =>
      let f := fields
        |> (fset · "response_status" (.int resp.statusCode))
        |> (fset · "content_type" (.str (headerGet resp.header "Content-Type")))
      let msg := toString resp.statusCode ++ " " ++ r.method ++ "-> " ++
        buildFullUrl anonymizedQueryParams r.url
      [{ fields := f, severity := severityForStatus resp.statusCode, message := msg }]
    | none => [{ fields := fields, severity := .warning,
                 message := "call, but no response given" }]

/-- `Application`: an entry pre-filled with type and correlation ids (no
severity or message of its own). -/
def Application (h : Header) : Fields :=
  setCorrelationIds (fset emptyFields "type" (.str "application")) h

/-! ## The middleware of `logging-middleware.go` -/

/-- What the wrapped handler did: the sequence of `WriteHeader` arguments it
issued, and whether it finished normally or panicked (with the panic value
rendered as a string, after the writes issued before the panic). -/
inductive HandlerOutcome
  | normal (writes : List Int)
  | panicked (writes : List Int) (value : String)

/-- The status recorded by `logResponseWriter`: initialized to 200, and
overwritten by every `WriteHeader` call (`lrw.statusCode = statusCode`). -/
def recordedStatus (writes : List Int) : Int :=
  writes.foldl (fun _ s => s) 200

/-- `LogMiddleware.ServeHTTP`, as the list of events it emits for one
request: on a normal return, the access event for the recorded status; on a
panic, the deferred `recover` emits exactly the `AccessError` event with the
`PANIC (<origin>): <value>` error text (`origin` abstracts the
`identifyLogOrigin` stack inspection) and the skipped `Access` call never
runs.  The configured `panicCode` only touches the HTTP response, never the
emitted events. -/
def ServeHTTP (anonymizedQueryParams accessLogCookiesBlacklist : List String)
    (panicCode : Int) (r : Request) (start : String) (durationMs : Int)
    (origin : String) (outcome : HandlerOutcome) : List Event :=
  let r := EnsureCorrelationId r
  match outcome with
  | .normal writes =>
    [Access anonymizedQueryParams accessLogCookiesBlacklist r start durationMs
       (recordedStatus writes)]
  | .panicked _ v =>
    [AccessError anonymizedQueryParams accessLogCookiesBlacklist r start durationMs
       ("PANIC (" ++ origin ++ "): " ++ v)]

/-! ## `Set` and the global logger -/

/-- A logrus level (modelling the external `logrus` dependency). -/
inductive Level
  | panicL
  | fatal
  | error
  | warning
  | info
  | debug
deriving DecidableEq

/-- ASCII lower-casing, for `strings.ToLower` in `logrus.ParseLevel`. -/
def lowerStr (s : String) : String :=
  String.mk (s.toList.map Char.toLower)

/-- `logrus.ParseLevel` (external dependency): case-insensitive match of the
level names, error otherwise.  Only validity/invalidity matters below. -/
def parseLevel (lvl : String) : Option Level :=
  match lowerStr lvl with
  | "panic" => some .panicL
  | "fatal" => some .fatal
  | "error" => some .error
  | "warn" => some .warning
  | "warning" => some .warning
  | "info" => some .info
  | "debug" => some .debug
  | _ => none

/-- The observable configuration of the global `Logger`: its level and which
formatter was installed. -/
structure LoggerConfig where
  level : Level
  textFormatter : Bool
deriving DecidableEq

/-- `Set`, as a transition on the global `Logger` (`none` models a logger
that was never assigned): on a parse error the error is returned and the
global is left untouched (the assignment is only reached on success). -/
def Set (logger : Option LoggerConfig) (level : String) (textLogging : Bool) :
    Option String × Option LoggerConfig :=
  match parseLevel level with
  | none => (some ("not a valid logrus Level: \"" ++ level ++ "\""), logger)
  | some l => (none, some { level := l, textFormatter := textLogging })

/-! ## Specification-side helpers and sample inputs -/

/-- The value of the last cookie with a given name on the request, the
value a Go map write-loop leaves behind. -/
def lastCookieValue (name : String) : List (String × String) → Option String
  | [] => none
  | c :: rest =>
    match lastCookieValue name rest with
    | some v => some v
    | none => if c.1 = name then some c.2 else none

/-- Occurrences of a string in a list. -/
def countStr : List String → String → Nat
  | [], _ => 0
  | x :: xs, k => (if x = k then 1 else 0) + countStr xs k

/-- Occurrences of a key among encoded `key=value` pairs. -/
def countKey : List (String × String) → String → Nat
  | [], _ => 0
  | p :: rest, k => (if p.1 = k then 1 else 0) + countKey rest k

/-- Each parameter name occurs at most once in a `QueryValues` map, and
exactly when lookup succeeds — the invariant Go's `url.Values` map enjoys by
construction. -/
def keysOnce (m : QueryValues) : Prop :=
  ∀ k, countStr (m.map Prod.fst) k = if (lookupQ m k).isSome then 1 else 0

/-- Whether the first list of characters is an initial segment of the
second — the anchor test of the `PANIC (.*` pattern. -/
def charsStart : List Char → List Char → Bool
  | [], _ => true
  | _ :: _, [] => false
  | a :: as, b :: bs => if a = b then charsStart as bs else false

/-- The request of the repository's own access/call tests. -/
def sampleURL : URL := ⟨"http", "www.example.org", "", "/foo", "q=bar"⟩

/-- The request of the repository's own access/call tests. -/
def sampleRequest : Request :=
  ⟨"GET", "www.example.org", sampleURL, "HTTP/1.1",
   [(CorrelationIdHeader, "correlation-123"),
    (UserCorrelationIdHeader, "user-correlation-123"),
    ("User-Agent", "UA")],
   [("ignore", "me"), ("foo", "bar")], "127.0.0.1"⟩

/-- The 404 response of the repository's call test. -/
def sampleResponse : HTTPResponse := ⟨404, [("Content-Type", "text/html")]⟩

/-- A URL whose query parameters are not sorted by name. -/
def orderURL : URL := ⟨"http", "h", "", "/foo", "b=1&a=2"⟩

/-- A URL whose query is already in the code's normal form. -/
def sortedURL : URL := ⟨"http", "h", "", "/foo", "a=1&b=2"⟩

/-- A request carrying two cookies with the same name. -/
def dupCookieRequest : Request :=
  ⟨"GET", "h", ⟨"http", "h", "", "/foo", ""⟩, "HTTP/1.1", [],
   [("a", "1"), ("a", "2")], "r"⟩

/-! ## Basic lemmas about field mappings -/

theorem fieldGet_fset_self (f : Fields) (k : String) (v : FieldValue) :
    fieldGet (fset f k v) k = some v := by
  simp [fieldGet, fset]

theorem fieldGet_fset_ne (f : Fields) (k k' : String) (v : FieldValue)
    (h : ¬ k' = k) : fieldGet (fset f k v) k' = fieldGet f k' := by
  simp [fieldGet, fset, h]

/-! ## Lemmas about the cookie map -/

theorem lookupStr_insertCookie_self (m : List (String × String)) (k v : String) :
    lookupStr (insertCookie m k v) k = some v := by
  induction m with
  | nil => simp [insertCookie, lookupStr]
  | cons p rest ih =>
    obtain ⟨pk, pv⟩ := p
    by_cases h : pk = k <;> simp [insertCookie, lookupStr, h, ih]

theorem lookupStr_insertCookie_ne (m : List (String × String)) (k v k' : String)
    (h : ¬ k = k') : lookupStr (insertCookie m k v) k' = lookupStr m k' := by
  induction m with
  | nil => simp [insertCookie, lookupStr, h]
  | cons p rest ih =>
    obtain ⟨pk, pv⟩ := p
    by_cases h1 : pk = k <;> by_cases h2 : pk = k' <;>
      simp_all [insertCookie, lookupStr]

theorem insertCookie_ne_nil (m : List (String × String)) (k v : String) :
    ¬ insertCookie m k v = [] := by
  cases m with
  | nil => simp [insertCookie]
  | cons p rest =>
    obtain ⟨pk, pv⟩ := p
    by_cases h : pk = k <;> simp [insertCookie, h]

/-- The cookie write-loop, on any starting map: a blacklisted name is never
written; otherwise the last cookie with the name wins, falling back to the
starting map. -/
theorem lookupStr_cookies_foldl (bl : List String) (cs : List (String × String))
    (m0 : List (String × String)) (name : String) :
    lookupStr (cs.foldl
        (fun m c => if contains bl c.1 then m else insertCookie m c.1 c.2) m0) name =
      if contains bl name then lookupStr m0 name
      else
        match lastCookieValue name cs with
        | some v => some v
        | none => lookupStr m0 name := by
  induction cs generalizing m0 with
  | nil =>
    simp only [List.foldl_nil, lastCookieValue]
    split <;> rfl
  | cons c cs ih =>
    simp only [List.foldl_cons]
    rw [ih]
    by_cases hbl : contains bl name = true
    · simp only [hbl, if_pos]
      by_cases hcn : c.1 = name
      · have : contains bl c.1 = true := hcn ▸ hbl
        simp [this]
      · by_cases hcb : contains bl c.1 = true <;>
          simp [hcb, lookupStr_insertCookie_ne _ _ _ _ hcn]
    · rw [Bool.not_eq_true] at hbl
      simp only [hbl, Bool.false_eq_true, if_false, lastCookieValue]
      cases hlast : lastCookieValue name cs with
      | some v => simp
      | none =>
        simp only []
        by_cases hcn : c.1 = name
        · have hcb : contains bl c.1 = false := by rw [hcn]; exact hbl
          simp [hbl, hcb, hcn, lookupStr_insertCookie_self]
        · by_cases hcb : contains bl c.1 = true <;>
            simp [hcb, hcn, lookupStr_insertCookie_ne _ _ _ _ hcn]

/-- The cookie write-loop produces the empty map exactly when it started
empty and every cookie is blacklisted. -/
theorem cookies_foldl_nil_iff (bl : List String) (cs : List (String × String))
    (m0 : List (String × String)) :
    (cs.foldl
        (fun m c => if contains bl c.1 then m else insertCookie m c.1 c.2) m0 = []) ↔
      (m0 = [] ∧ ∀ c ∈ cs, contains bl c.1 = true) := by
  induction cs generalizing m0 with
  | nil => simp
  | cons c cs ih =>
    simp only [List.foldl_cons]
    rw [ih]
    by_cases h : contains bl c.1 = true <;>
      simp [h, insertCookie_ne_nil]

/-! ## C4: the cookies field of the access event -/

/-- C4 (amended): for every request and blacklist state, the access event's
cookie map has no entry for a blacklisted name; for a non-blacklisted name it
has exactly the value of the last cookie with that name on the request
(values of earlier same-named cookies are overwritten); the map is empty
exactly when every cookie on the request is blacklisted, and the `cookies`
field is attached to the event exactly when the map is non-empty. -/
theorem C4_cookies_field (anonymizedQueryParams accessLogCookiesBlacklist : List String)
    (r : Request) (start : String) (durationMs statusCode : Int) (err : Option String)
    (name : String) :
    lookupStr (cookiesMap accessLogCookiesBlacklist r.cookies) name =
      (if contains accessLogCookiesBlacklist name then none
       else lastCookieValue name r.cookies) ∧
    ((cookiesMap accessLogCookiesBlacklist r.cookies).isEmpty =
      r.cookies.all (fun c => contains accessLogCookiesBlacklist c.1)) ∧
    fieldGet (access anonymizedQueryParams accessLogCookiesBlacklist r start
        durationMs statusCode err) "cookies" =
      (if cookiesMap accessLogCookiesBlacklist r.cookies = [] then none
       else some (.strMap (cookiesMap accessLogCookiesBlacklist r.cookies))) := by
  refine ⟨?_, ?_, ?_⟩
  · rw [cookiesMap, lookupStr_cookies_foldl]
    by_cases h : contains accessLogCookiesBlacklist name = true
    · simp [h, lookupStr]
    · rw [Bool.not_eq_true] at h
      simp only [h, Bool.false_eq_true, if_false]
      cases lastCookieValue name r.cookies <;> simp [lookupStr]
  · rw [Bool.eq_iff_iff, List.isEmpty_iff, List.all_eq_true, cookiesMap,
      cookies_foldl_nil_iff]
    simp
  · by_cases hc : cookiesMap accessLogCookiesBlacklist r.cookies = []
    · cases err <;>
        by_cases h1 : GetCorrelationId r.header = "" <;>
        by_cases h2 : GetUserCorrelationId r.header = "" <;>
        by_cases h3 : statusCode = 0 <;>
          simp [access, setCorrelationIds, fieldGet, fset, emptyFields,
            hc, h1, h2, h3]
    · simp [access, fieldGet, fset, hc]

/-- C4 counterexample: with two cookies both named `a` (values `1` then `2`)
and an empty blacklist, the event's cookie map is exactly `a ↦ 2`: the
first cookie is present on the request and not blacklisted, yet its value
`1` appears nowhere, refuting "contains an entry with the request's cookie
value for every non-blacklisted cookie present on the request". -/
theorem C4_counterexample :
    dupCookieRequest.cookies = [("a", "1"), ("a", "2")] ∧
    fieldGet (access [] [] dupCookieRequest "t" 1 200 none) "cookies" =
      some (.strMap [("a", "2")]) :=
  ⟨rfl, by decide⟩

/-! ## C1: severity by status code -/

/-- C1: both the access-event builder and the call-event builder derive
their severity from the status code by the same branch: info for 200–399,
warning for 400–499, error otherwise — in particular for codes below 200
and at or above 500. -/
theorem C1_severity_by_status (anonymizedQueryParams accessLogCookiesBlacklist : List String)
    (r : Request) (start : String) (durationMs s : Int) (resp : HTTPResponse) :
    (Access anonymizedQueryParams accessLogCookiesBlacklist r start durationMs s).severity =
      severityForStatus s ∧
    (Call anonymizedQueryParams r (some resp) start durationMs none).map Event.severity =
      [severityForStatus resp.statusCode] ∧
    (200 ≤ s → s ≤ 399 → severityForStatus s = .info) ∧
    (400 ≤ s → s ≤ 499 → severityForStatus s = .warning) ∧
    (s < 200 ∨ 500 ≤ s → severityForStatus s = .error) := by
  refine ⟨rfl, by simp [Call], ?_, ?_, ?_⟩
  · intro h1 h2
    simp [severityForStatus, h1, h2]
  · intro h1 h2
    have h3 : ¬ (200 ≤ s ∧ s ≤ 399) := by omega
    simp [severityForStatus, h3, h1, h2]
  · intro h
    have h1 : ¬ (200 ≤ s ∧ s ≤ 399) := by omega
    have h2 : ¬ (400 ≤ s ∧ s ≤ 499) := by omega
    simp [severityForStatus, h1, h2]

/-- Witness for C1 at concrete status codes. -/
theorem C1_severity_witness :
    severityForStatus 201 = Severity.info ∧
    severityForStatus 404 = Severity.warning ∧
    severityForStatus 503 = Severity.error ∧
    severityForStatus 199 = Severity.error :=
  ⟨(C1_severity_by_status [] [] sampleRequest "t" 1 201 sampleResponse).2.2.1
      (by decide) (by decide),
   (C1_severity_by_status [] [] sampleRequest "t" 1 404 sampleResponse).2.2.2.1
      (by decide) (by decide),
   (C1_severity_by_status [] [] sampleRequest "t" 1 503 sampleResponse).2.2.2.2
      (Or.inr (by decide)),
   (C1_severity_by_status [] [] sampleRequest "t" 1 199 sampleResponse).2.2.2.2
      (Or.inl (by decide))⟩

/-! ## C7: the outbound call reporter -/

/-- C7: `Call` emits exactly one event per invocation; with an error the
event is error-severity and its message is the error text (even when a
response is also supplied); with a response and no error the event carries
`response_status` and `content_type`, the status-derived severity, and the
message `<status> <method>-> <full_url>`; with neither, the event is a
warning with message `call, but no response given`. -/
theorem C7_call_reporter (anonymizedQueryParams : List String) (r : Request)
    (start : String) (durationMs : Int) (resp : HTTPResponse) (e : String)
    (o : Option HTTPResponse) :
    (Call anonymizedQueryParams r o start durationMs (some e)).map Event.severity =
      [Severity.error] ∧
    (Call anonymizedQueryParams r o start durationMs (some e)).map Event.message = [e] ∧
    (Call anonymizedQueryParams r o start durationMs (some e)).map
        (fun ev => fieldGet ev.fields "error") = [some (.str e)] ∧
    (Call anonymizedQueryParams r (some resp) start durationMs none).map Event.severity =
      [severityForStatus resp.statusCode] ∧
    (Call anonymizedQueryParams r (some resp) start durationMs none).map Event.message =
      [toString resp.statusCode ++ " " ++ r.method ++ "-> " ++
        buildFullUrl anonymizedQueryParams r.url] ∧
    (Call anonymizedQueryParams r (some resp) start durationMs none).map
        (fun ev => fieldGet ev.fields "response_status") = [some (.int resp.statusCode)] ∧
    (Call anonymizedQueryParams r (some resp) start durationMs none).map
        (fun ev => fieldGet ev.fields "content_type") =
      [some (.str (headerGet resp.header "Content-Type"))] ∧
    (Call anonymizedQueryParams r none start durationMs none).map Event.severity =
      [Severity.warning] ∧
    (Call anonymizedQueryParams r none start durationMs none).map Event.message =
      ["call, but no response given"] ∧
    (∀ o2 e2, (Call anonymizedQueryParams r o2 start durationMs e2).length = 1) := by
  refine ⟨?_, ?_, ?_, ?_, ?_, ?_, ?_, ?_, ?_, ?_⟩
  · cases o <;> simp [Call]
  · cases o <;> simp [Call]
  · cases o <;> simp [Call, fieldGet, fset]
  · simp [Call]
  · simp [Call]
  · simp [Call, fieldGet, fset]
  · simp [Call, fieldGet, fset]
  · simp [Call]
  · simp [Call]
  · intro o2 e2
    cases o2 <;> cases e2 <;> simp [Call]

/-! ## C9: correlation identifiers on every event -/

/-- C9: for the access, call and application builders alike, a non-empty
request-correlation header value appears verbatim as `correlation_id` and a
non-empty user-correlation header value appears verbatim as
`user_correlation_id`; an empty or unset header leaves the field absent.
(`GetCorrelationId` is modelled from the spec, its defining file being
absent from src/.) -/
theorem C9_correlation_ids (anonymizedQueryParams accessLogCookiesBlacklist : List String)
    (r : Request) (start : String) (durationMs statusCode : Int)
    (err : Option String) (resp : Option HTTPResponse) (callErr : Option String) :
    (fieldGet (access anonymizedQueryParams accessLogCookiesBlacklist r start
        durationMs statusCode err) "correlation_id" =
      (if GetCorrelationId r.header = "" then none
       else some (.str (GetCorrelationId r.header)))) ∧
    (fieldGet (access anonymizedQueryParams accessLogCookiesBlacklist r start
        durationMs statusCode err) "user_correlation_id" =
      (if GetUserCorrelationId r.header = "" then none
       else some (.str (GetUserCorrelationId r.header)))) ∧
    ((Call anonymizedQueryParams r resp start durationMs callErr).map
        (fun ev => fieldGet ev.fields "correlation_id") =
      [if GetCorrelationId r.header = "" then none
       else some (.str (GetCorrelationId r.header))]) ∧
    ((Call anonymizedQueryParams r resp start durationMs callErr).map
        (fun ev => fieldGet ev.fields "user_correlation_id") =
      [if GetUserCorrelationId r.header = "" then none
       else some (.str (GetUserCorrelationId r.header))]) ∧
    (fieldGet (Application r.header) "correlation_id" =
      (if GetCorrelationId r.header = "" then none
       else some (.str (GetCorrelationId r.header)))) ∧
    (fieldGet (Application r.header) "user_correlation_id" =
      (if GetUserCorrelationId r.header = "" then none
       else some (.str (GetUserCorrelationId r.header)))) := by
  refine ⟨?_, ?_, ?_, ?_, ?_, ?_⟩
  · by_cases h1 : GetCorrelationId r.header = "" <;>
    by_cases h2 : GetUserCorrelationId r.header = "" <;>
    by_cases h3 : statusCode = 0 <;>
    by_cases h4 : cookiesMap accessLogCookiesBlacklist r.cookies = [] <;>
    cases err <;>
      simp [access, setCorrelationIds, fieldGet, fset, emptyFields, h1, h2, h3, h4]
  · by_cases h1 : GetCorrelationId r.header = "" <;>
    by_cases h2 : GetUserCorrelationId r.header = "" <;>
    by_cases h3 : statusCode = 0 <;>
    by_cases h4 : cookiesMap accessLogCookiesBlacklist r.cookies = [] <;>
    cases err <;>
      simp [access, setCorrelationIds, fieldGet, fset, emptyFields, h1, h2, h3, h4]
  · cases resp <;> cases callErr <;>
    by_cases h1 : GetCorrelationId r.header = "" <;>
    by_cases h2 : GetUserCorrelationId r.header = "" <;>
      simp [Call, setCorrelationIds, fieldGet, fset, emptyFields, h1, h2]
  · cases resp <;> cases callErr <;>
    by_cases h1 : GetCorrelationId r.header = "" <;>
    by_cases h2 : GetUserCorrelationId r.header = "" <;>
      simp [Call, setCorrelationIds, fieldGet, fset, emptyFields, h1, h2]
  · by_cases h1 : GetCorrelationId r.header = "" <;>
    by_cases h2 : GetUserCorrelationId r.header = "" <;>
      simp [Application, setCorrelationIds, fieldGet, fset, emptyFields, h1, h2]
  · by_cases h1 : GetCorrelationId r.header = "" <;>
    by_cases h2 : GetUserCorrelationId r.header = "" <;>
      simp [Application, setCorrelationIds, fieldGet, fset, emptyFields, h1, h2]

/-! ## C5: panic recovery in the middleware -/

/-- C5 (amended): when the wrapped handler panics with value `v`, the
middleware emits exactly one event: an error-severity access event whose
`error` field is exactly `PANIC (<origin>): <v>` and whose message is
`ERROR -><method> <path>`; it carries no `response_status` (so it is the
error event, not a normal access event).  The middleware is stateless across
requests: a later request with a normally-returning handler produces exactly
its normal access event. -/
theorem C5_panic_recovery (anonymizedQueryParams accessLogCookiesBlacklist : List String)
    (panicCode : Int) (r : Request) (start : String) (durationMs : Int)
    (origin v : String) (ws ws2 : List Int) :
    (ServeHTTP anonymizedQueryParams accessLogCookiesBlacklist panicCode r start
        durationMs origin (.panicked ws v)).length = 1 ∧
    (ServeHTTP anonymizedQueryParams accessLogCookiesBlacklist panicCode r start
        durationMs origin (.panicked ws v)).map Event.severity = [Severity.error] ∧
    (ServeHTTP anonymizedQueryParams accessLogCookiesBlacklist panicCode r start
        durationMs origin (.panicked ws v)).map Event.message =
      ["ERROR ->" ++ r.method ++ " " ++ r.url.path] ∧
    (ServeHTTP anonymizedQueryParams accessLogCookiesBlacklist panicCode r start
        durationMs origin (.panicked ws v)).map (fun e => fieldGet e.fields "error") =
      [some (.str ("PANIC (" ++ origin ++ "): " ++ v))] ∧
    (ServeHTTP anonymizedQueryParams accessLogCookiesBlacklist panicCode r start
        durationMs origin (.panicked ws v)).map
        (fun e => fieldGet e.fields "response_status") = [none] ∧
    ServeHTTP anonymizedQueryParams accessLogCookiesBlacklist panicCode r start
        durationMs origin (.normal ws2) =
      [Access anonymizedQueryParams accessLogCookiesBlacklist (EnsureCorrelationId r)
        start durationMs (recordedStatus ws2)] := by
  refine ⟨rfl, rfl, rfl, ?_, ?_, rfl⟩
  · by_cases h1 : GetCorrelationId r.header = "" <;>
    by_cases h2 : GetUserCorrelationId r.header = "" <;>
    by_cases h4 : cookiesMap accessLogCookiesBlacklist r.cookies = [] <;>
      simp [ServeHTTP, AccessError, EnsureCorrelationId, access, setCorrelationIds,
        fieldGet, fset, emptyFields, h1, h2, h4]
  · by_cases h1 : GetCorrelationId r.header = "" <;>
    by_cases h2 : GetUserCorrelationId r.header = "" <;>
    by_cases h4 : cookiesMap accessLogCookiesBlacklist r.cookies = [] <;>
      simp [ServeHTTP, AccessError, EnsureCorrelationId, access, setCorrelationIds,
        fieldGet, fset, emptyFields, h1, h2, h4]

/-- C5 counterexample: a handler panicking with `boom` yields the single
event with message `ERROR ->GET /foo` — not a message matching
`PANIC (.*): boom`: the message does not start with `PANIC (`, and differs
from the panic text built from this origin and value.  The `PANIC` text is
the event's `error` field instead. -/
theorem C5_counterexample :
    (ServeHTTP [] [] 0 sampleRequest "t" 1 "pkg.handler:42"
        (.panicked [] "boom")).map Event.message = ["ERROR ->GET /foo"] ∧
    charsStart "PANIC (".toList "ERROR ->GET /foo".toList = false ∧
    ¬ ("ERROR ->GET /foo" = "PANIC (" ++ "pkg.handler:42" ++ "): " ++ "boom") ∧
    (ServeHTTP [] [] 0 sampleRequest "t" 1 "pkg.handler:42"
        (.panicked [] "boom")).map (fun e => fieldGet e.fields "error") =
      [some (.str "PANIC (pkg.handler:42): boom")] :=
  ⟨rfl, by decide, by decide, by decide⟩

/-! ## C6: the recorded response status -/

/-- C6 (amended): the wrapper's recorded status is 200 when the handler
never calls `WriteHeader`, and otherwise the argument of the *last*
`WriteHeader` call — every call overwrites the recorded value — and the
access event emitted on a normal return uses exactly that recorded status
for its severity and its `response_status` field (absent for a recorded 0,
which `access` treats as "no status"). -/
theorem C6_recorded_status (anonymizedQueryParams accessLogCookiesBlacklist : List String)
    (panicCode : Int) (r : Request) (start : String) (durationMs : Int)
    (origin : String) (ws : List Int) (s : Int) :
    recordedStatus [] = 200 ∧
    recordedStatus (ws ++ [s]) = s ∧
    (ServeHTTP anonymizedQueryParams accessLogCookiesBlacklist panicCode r start
        durationMs origin (.normal ws)).map Event.severity =
      [severityForStatus (recordedStatus ws)] ∧
    (ServeHTTP anonymizedQueryParams accessLogCookiesBlacklist panicCode r start
        durationMs origin (.normal ws)).map
        (fun e => fieldGet e.fields "response_status") =
      [if recordedStatus ws = 0 then none else some (.int (recordedStatus ws))] := by
  refine ⟨rfl, ?_, rfl, ?_⟩
  · simp [recordedStatus]
  · by_cases h1 : GetCorrelationId r.header = "" <;>
    by_cases h2 : GetUserCorrelationId r.header = "" <;>
    by_cases h3 : recordedStatus ws = 0 <;>
    by_cases h4 : cookiesMap accessLogCookiesBlacklist r.cookies = [] <;>
      simp [ServeHTTP, Access, EnsureCorrelationId, access, setCorrelationIds,
        fieldGet, fset, emptyFields, h1, h2, h3, h4]

/-- C6 counterexample: a handler calling `WriteHeader 404` and then
`WriteHeader 500` gets 500 recorded and logged — the argument of the last
call, not of the first as claimed. -/
theorem C6_counterexample :
    recordedStatus [404, 500] = 500 ∧
    ¬ ((500 : Int) = 404) ∧
    (ServeHTTP [] [] 0 sampleRequest "t" 1 "o" (.normal [404, 500])).map
        (fun e => fieldGet e.fields "response_status") = [some (.int 500)] :=
  ⟨rfl, by decide, by decide⟩

/-! ## C8: `Set` and invalid level strings -/

/-- C8: `Set` with a string `logrus.ParseLevel` rejects returns that error
and leaves the global `Logger` untouched; with a valid level name it returns
`nil` and replaces the `Logger` by one at the parsed level with the chosen
formatter. -/
theorem C8_set_level (logger : Option LoggerConfig) (s : String) (b : Bool) :
    (parseLevel s = none →
      Set logger s b = (some ("not a valid logrus Level: \"" ++ s ++ "\""), logger)) ∧
    (∀ l, parseLevel s = some l →
      Set logger s b = (none, some { level := l, textFormatter := b })) := by
  constructor
  · intro h
    simp [Set, h]
  · intro l h
    simp [Set, h]

/-- Witness for C8: an invalid level is rejected without touching the
logger; a valid (case-insensitive) one replaces it. -/
theorem C8_set_level_witness :
    parseLevel "xyz" = none ∧
    Set none "xyz" false = (some "not a valid logrus Level: \"xyz\"", none) ∧
    parseLevel "WarN" = some Level.warning ∧
    Set (some ⟨Level.info, false⟩) "WarN" true = (none, some ⟨Level.warning, true⟩) :=
  ⟨by decide,
   (C8_set_level none "xyz" false).1 (by decide),
   by decide,
   (C8_set_level (some ⟨Level.info, false⟩) "WarN" true).2 Level.warning (by decide)⟩

/-! ## Lemmas about the query map -/

theorem lookupQ_addValue_self (m : QueryValues) (k v : String) :
    lookupQ (addValue m k v) k = some (((lookupQ m k).getD []) ++ [v]) := by
  induction m with
  | nil => simp [addValue, lookupQ]
  | cons p rest ih =>
    obtain ⟨pk, pvs⟩ := p
    by_cases h : pk = k <;> simp [addValue, lookupQ, h, ih]

theorem lookupQ_addValue_ne (m : QueryValues) (k v k' : String) (h : ¬ k = k') :
    lookupQ (addValue m k v) k' = lookupQ m k' := by
  induction m with
  | nil => simp [addValue, lookupQ, h]
  | cons p rest ih =>
    obtain ⟨pk, pvs⟩ := p
    by_cases h1 : pk = k <;> by_cases h2 : pk = k' <;>
      simp_all [addValue, lookupQ]

theorem countStr_keys_addValue (m : QueryValues) (k v k2 : String) :
    countStr ((addValue m k v).map Prod.fst) k2 =
      (if (lookupQ m k).isSome then countStr (m.map Prod.fst) k2
       else countStr (m.map Prod.fst) k2 + (if k = k2 then 1 else 0)) := by
  induction m with
  | nil => simp [addValue, lookupQ, countStr]
  | cons p rest ih =>
    obtain ⟨pk, pvs⟩ := p
    by_cases h : pk = k
    · subst h
      simp [addValue, lookupQ, countStr]
    · have haddv : addValue ((pk, pvs) :: rest) k v = (pk, pvs) :: addValue rest k v := by
        simp [addValue, h]
      have hlk : lookupQ ((pk, pvs) :: rest) k = lookupQ rest k := by
        simp [lookupQ, h]
      rw [haddv, hlk]
      simp only [List.map_cons, countStr]
      rw [ih]
      by_cases hs : (lookupQ rest k).isSome = true <;> simp [hs] <;> omega

theorem keysOnce_nil : keysOnce [] := by
  intro k
  simp [countStr, lookupQ]

theorem keysOnce_addValue (m : QueryValues) (k v : String) (hm : keysOnce m) :
    keysOnce (addValue m k v) := by
  intro k2
  rw [countStr_keys_addValue, hm k2]
  by_cases hk2 : k2 = k
  · subst hk2
    cases hs : lookupQ m k2 <;>
      simp [lookupQ_addValue_self, hs]
  · have hk2' : ¬ k = k2 := fun hh => hk2 hh.symm
    rw [lookupQ_addValue_ne _ _ _ _ hk2']
    cases hs : (lookupQ m k).isSome <;> simp [hs, hk2']

theorem keysOnce_parsePair (m : QueryValues) (seg : List Char) (hm : keysOnce m) :
    keysOnce (parsePair m seg) := by
  unfold parsePair
  split
  · exact hm
  · split
    · exact keysOnce_addValue _ _ _ hm
    · exact hm

theorem keysOnce_foldl_parsePair (segs : List (List Char)) (m : QueryValues)
    (hm : keysOnce m) : keysOnce (segs.foldl parsePair m) := by
  induction segs generalizing m with
  | nil => exact hm
  | cons s segs ih => exact ih _ (keysOnce_parsePair _ _ hm)

/-- The query map `r.URL.Query()` yields never repeats a parameter name. -/
theorem keysOnce_parseQuery (raw : String) : keysOnce (parseQuery raw) :=
  keysOnce_foldl_parsePair _ _ keysOnce_nil

theorem maskParams_keys (a : List String) (m : QueryValues) :
    (maskParams a m).map Prod.fst = m.map Prod.fst := by
  induction m with
  | nil => rfl
  | cons p rest ih =>
    simp only [maskParams, List.map_cons] at ih ⊢
    by_cases h : contains a p.1 = true <;> simp [h, ih]

/-- Looking up a parameter after the anonymization loop: an anonymized name
maps to the single mask value, any other name keeps its parsed values. -/
theorem lookupQ_maskParams (a : List String) (m : QueryValues) (k : String) :
    lookupQ (maskParams a m) k =
      (lookupQ m k).map (fun vs => if contains a k then ["*****"] else vs) := by
  induction m with
  | nil => rfl
  | cons p rest ih =>
    have hcons : maskParams a (p :: rest) =
        (if contains a p.1 = true then (p.1, ["*****"]) else p) :: maskParams a rest := by
      simp [maskParams]
    rw [hcons]
    by_cases hk : p.1 = k
    · subst hk
      by_cases hc : contains a p.1 = true <;> simp [lookupQ, hc]
    · by_cases hc : contains a p.1 = true <;> simp [lookupQ, hc, hk, ih]

theorem maskParams_nil (m : QueryValues) : maskParams [] m = m := by
  induction m with
  | nil => rfl
  | cons p rest ih =>
    simp only [maskParams, List.map_cons] at ih ⊢
    simp [contains, ih]

theorem keysOnce_maskParams (a : List String) (m : QueryValues) (hm : keysOnce m) :
    keysOnce (maskParams a m) := by
  intro k
  rw [maskParams_keys, lookupQ_maskParams, hm k]
  cases hs : lookupQ m k <;> simp [hs]

/-! ## Counting the `key=value` occurrences `Values.Encode` emits -/

theorem countKey_append (l1 l2 : List (String × String)) (k : String) :
    countKey (l1 ++ l2) k = countKey l1 k + countKey l2 k := by
  induction l1 with
  | nil => simp [countKey]
  | cons p rest ih =>
    simp [countKey, ih]
    omega

theorem countKey_map_pair (k' : String) (vs : List String) (k : String) :
    countKey (vs.map (fun v => (k', v))) k = if k' = k then vs.length else 0 := by
  induction vs with
  | nil => simp [countKey]
  | cons v vs ih =>
    by_cases h : k' = k
    · subst h
      simp [countKey, ih]
      omega
    · simp [countKey, h, ih]

theorem countKey_flatMap (ks : List String) (m : QueryValues) (k : String) :
    countKey (ks.flatMap (fun k2 => ((lookupQ m k2).getD []).map (fun v => (k2, v)))) k =
      countStr ks k * ((lookupQ m k).getD []).length := by
  induction ks with
  | nil => simp [countKey, countStr]
  | cons k2 ks ih =>
    rw [List.flatMap_cons, countKey_append, countKey_map_pair, ih]
    by_cases h : k2 = k
    · subst h
      simp [countStr]
      ring
    · simp [countStr, h]

theorem countStr_insertSorted (x : String) (l : List String) (k : String) :
    countStr (insertSorted x l) k = (if x = k then 1 else 0) + countStr l k := by
  induction l with
  | nil => simp [insertSorted, countStr]
  | cons y ys ih =>
    by_cases h : strLt x y = true
    · simp [insertSorted, h, countStr]
    · simp [insertSorted, h, countStr, ih]
      omega

theorem countStr_sortStrings (l : List String) (k : String) :
    countStr (sortStrings l) k = countStr l k := by
  induction l with
  | nil => rfl
  | cons x xs ih => simp [sortStrings, countStr_insertSorted, countStr, ih]

/-- With unique parameter names, `Values.Encode` emits one `key=value` pair
per stored value of the key. -/
theorem countKey_flatPairs (m : QueryValues) (k : String) (hm : keysOnce m) :
    countKey (flatPairs m) k = ((lookupQ m k).getD []).length := by
  unfold flatPairs
  rw [countKey_flatMap, countStr_sortStrings, hm k]
  cases hs : lookupQ m k <;> simp [hs]

/-! ## C2: round-trip of the path and query with no anonymization -/

/-- C2 counterexample: on path `/foo` with raw query `b=1&a=2` and an empty
anonymization set, `buildFullPath` returns `/foo?a=2&b=1` — `Values.Encode`
sorts the parameters by name — which is not the original `path?query`
character for character. -/
theorem C2_counterexample :
    buildFullPath [] orderURL = "/foo?a=2&b=1" ∧
    orderURL.path ++ "?" ++ orderURL.rawQuery = "/foo?b=1&a=2" ∧
    ¬ ("/foo?a=2&b=1" = "/foo?b=1&a=2") :=
  ⟨by decide, rfl, by decide⟩

/-- C2 (amended): with an empty anonymization set, `buildFullPath`
reproduces the original path plus `?` plus the original raw query exactly
when the raw query is non-empty and invariant under the code's
normalization — parsing, re-encoding with parameters sorted by name, and
percent-decoding.  (The counterexample shows the identity fails for
parameter orders the sort changes; percent-escapes and `+` are likewise
decoded.) -/
theorem C2_roundtrip_amended (u : URL)
    (h1 : queryUnescapeDropErr (valuesEncode (parseQuery u.rawQuery)) = u.rawQuery)
    (h2 : ¬ u.rawQuery = "") :
    buildFullPath [] u = u.path ++ "?" ++ u.rawQuery := by
  simp only [buildFullPath, maskParams_nil, h1]
  simp [h2]

/-- Witness for C2 on a query already in normal form. -/
theorem C2_roundtrip_witness :
    queryUnescapeDropErr (valuesEncode (parseQuery sortedURL.rawQuery)) =
      sortedURL.rawQuery ∧
    ¬ sortedURL.rawQuery = "" ∧
    buildFullPath [] sortedURL = sortedURL.path ++ "?" ++ sortedURL.rawQuery :=
  ⟨by decide, by decide, C2_roundtrip_amended sortedURL (by decide) (by decide)⟩

/-! ## C3: anonymized query parameters are masked, others preserved -/

/-- C3: the `url` field of access and call events and the `full_url` field of
call events are exactly `buildFullPath`/`buildFullUrl` of the request URL
under the current anonymization set; in the query those functions encode, an
anonymized parameter name carries exactly the mask value `*****`, and a
parameter not in the set keeps its parsed values verbatim; repeated builds
over the same request and policy state are the same string, the builders
being functions of request and policy alone. -/
theorem C3_anonymization (anonymizedQueryParams accessLogCookiesBlacklist : List String)
    (r : Request) (start : String) (durationMs statusCode : Int) (k : String)
    (o : Option HTTPResponse) :
    fieldGet (access anonymizedQueryParams accessLogCookiesBlacklist r start
        durationMs statusCode none) "url" =
      some (.str (buildFullPath anonymizedQueryParams r.url)) ∧
    (Call anonymizedQueryParams r o start durationMs none).map
        (fun ev => fieldGet ev.fields "url") =
      [some (.str (buildFullPath anonymizedQueryParams r.url))] ∧
    (Call anonymizedQueryParams r o start durationMs none).map
        (fun ev => fieldGet ev.fields "full_url") =
      [some (.str (buildFullUrl anonymizedQueryParams r.url))] ∧
    lookupQ (maskParams anonymizedQueryParams (parseQuery r.url.rawQuery)) k =
      (lookupQ (parseQuery r.url.rawQuery) k).map
        (fun vs => if contains anonymizedQueryParams k then ["*****"] else vs) ∧
    buildFullPath anonymizedQueryParams r.url = buildFullPath anonymizedQueryParams r.url ∧
    buildFullUrl anonymizedQueryParams r.url = buildFullUrl anonymizedQueryParams r.url := by
  refine ⟨?_, ?_, ?_, lookupQ_maskParams _ _ _, rfl, rfl⟩
  · by_cases h1 : GetCorrelationId r.header = "" <;>
    by_cases h2 : GetUserCorrelationId r.header = "" <;>
    by_cases h3 : statusCode = 0 <;>
    by_cases h4 : cookiesMap accessLogCookiesBlacklist r.cookies = [] <;>
      simp [access, setCorrelationIds, fieldGet, fset, emptyFields, h1, h2, h3, h4]
  · cases o <;>
    by_cases h1 : GetCorrelationId r.header = "" <;>
    by_cases h2 : GetUserCorrelationId r.header = "" <;>
      simp [Call, setCorrelationIds, fieldGet, fset, emptyFields, h1, h2]
  · cases o <;>
    by_cases h1 : GetCorrelationId r.header = "" <;>
    by_cases h2 : GetUserCorrelationId r.header = "" <;>
      simp [Call, setCorrelationIds, fieldGet, fset, emptyFields, h1, h2]

/-! ## C10: multi-valued parameters under anonymization -/

/-- C10: among the `key=value` occurrences the encoder emits for the
redacted query, an anonymized parameter name present in the query yields
exactly one occurrence (with the single mask value, however many values it
had), while a name not in the set yields one occurrence per parsed value,
the same as in the unredacted build. -/
theorem C10_multivalued_params (anonymizedQueryParams : List String)
    (raw k : String) :
    countKey (flatPairs (maskParams anonymizedQueryParams (parseQuery raw))) k =
      (if contains anonymizedQueryParams k then
        (if (lookupQ (parseQuery raw) k).isSome then 1 else 0)
       else ((lookupQ (parseQuery raw) k).getD []).length) ∧
    countKey (flatPairs (parseQuery raw)) k =
      ((lookupQ (parseQuery raw) k).getD []).length ∧
    lookupQ (maskParams anonymizedQueryParams (parseQuery raw)) k =
      (lookupQ (parseQuery raw) k).map
        (fun vs => if contains anonymizedQueryParams k then ["*****"] else vs) := by
  refine ⟨?_, countKey_flatPairs _ _ (keysOnce_parseQuery raw), lookupQ_maskParams _ _ _⟩
  rw [countKey_flatPairs _ _ (keysOnce_maskParams _ _ (keysOnce_parseQuery raw)),
    lookupQ_maskParams]
  by_cases hc : contains anonymizedQueryParams k = true <;>
    cases hs : lookupQ (parseQuery raw) k <;> simp [hc, hs]

end Logging
